import Mathlib

/-!
Verification of the object dependency resolution and materialization engine
of `modal/app.py` (`_lookup_to_id`, `_App.load`, `_App.create_all_objects`).

The embedding mirrors the Python source line by line.  Session state is the
triple of caches held by `_App`; remote calls are recorded in an event trace;
exceptions become an error sum type.  `load` is fuel-indexed because the
recursion of the source is not structurally decreasing (cycles in the user's
definition graph diverge in Python and exhaust fuel here).
-/

namespace Modal

/-- First-match association-list lookup.  Python dict lookup; an insert is a
`cons`, which shadows any older binding exactly as a dict overwrite does. -/
def lookupKey {β : Type} : List (String × β) → String → Option β
  | [], _ => none
  | (k, v) :: rest, key => if k = key then some v else lookupKey rest key

/-- Keys of an association list (`dict.keys()`, up to duplicates that are
invisible to `lookupKey` and to membership). -/
def keysOf {β : Type} (l : List (String × β)) : List String :=
  l.map Prod.fst

mutual
/-- An `Object` of the source (`modal/object.py` is not in the excerpt, but
`_App.load` pattern-matches on exactly this shape): either a `Ref`
(fields `app_name`, `tag`, `namespace`, optional embedded `definition`, from
the `isinstance(obj, Ref)` branch of `load`) or a plain definition whose
kind-specific creation coroutine is `logic`.  Every object carries a
`local_uuid`. -/
inductive Obj : Type where
  | mkRef (localUuid : String) (appName : Option String) (tag : String)
      (ns : Nat) (definition : Option Obj) : Obj
  | mkDef (localUuid : String) (logic : Prog) : Obj

/-- Modelled from the spec: the kind-specific creation coroutine
`obj._load(client, app_id, existing_object_id)` (the kind modules are not in
the excerpt).  Per the spec it "may itself request materialization of nested
dependency nodes — each such nested request re-enters this same algorithm
(interception)" and ends with the kind's own remote creation call, which
either returns an object id (possibly `None`) or fails remotely. -/
inductive Prog : Type where
  | ret (objectId : Option String) : Prog
  | fail (msg : String) : Prog
  | dep (o : Obj) (rest : Prog) : Prog
end

/-- The `local_uuid` attribute common to every object. -/
def Obj.localUuid : Obj → String
  | .mkRef u _ _ _ _ => u
  | .mkDef u _ => u

/-- The dependency objects a creation coroutine will request, in order. -/
def progDeps : Prog → List Obj
  | .ret _ => []
  | .fail _ => []
  | .dep o rest => o :: progDeps rest

/-- One remote call, as observed on the wire. -/
inductive Event : Type where
  | create (localUuid : String) : Event
  | lookup (appName tag : String) (ns : Nat) : Event
  | deploy (appName : String) (tags : List String) : Event
  | setObjects (appId : String) (objectIds : List (String × Option String)) : Event
deriving DecidableEq, Repr

/-- Whether an event is the bulk `AppSetObjects` registration call. -/
def Event.isSetObjects : Event → Bool
  | .setObjects _ _ => true
  | _ => false

/-- The exceptions the engine can raise. -/
inductive Err : Type where
  | notFound (msg : String) : Err
  | materializationError (existingId : String) (objectId : Option String) : Err
  | noneObjectId : Err
  | keyError (tag : String) : Err
  | remoteError (msg : String) : Err
  | assertionError : Err
  | outOfFuel : Err
deriving DecidableEq, Repr

/-- Response of the `AppLookupObject` RPC: proto string fields, where an empty
`object_id` means "not found" (`if not response.object_id`). -/
structure LookupResponse : Type where
  objectId : String
  errorMessage : String

/-- The read-only environment of one session: the definition graph
`self._app._blueprint` and the remote registry behind `AppLookupObject`. -/
structure Env : Type where
  blueprint : List (String × Obj)
  appLookupObject : String → String → Nat → LookupResponse

/-- The mutable caches of `_App`: `_tag_to_object` (the stored object's
`.object_id`, which is `None` exactly when the id that built it was),
`_tag_to_existing_id` and `_local_uuid_to_object_id`. -/
structure AppState : Type where
  tagToObject : List (String × Option String)
  tagToExistingID : List (String × String)
  localUuidToObjectId : List (String × Option String)
deriving DecidableEq

instance {ε α : Type} [DecidableEq ε] [DecidableEq α] :
    DecidableEq (Except ε α) := fun a b =>
  match a, b with
  | Except.ok x, Except.ok y =>
    if h : x = y then Decidable.isTrue (by rw [h])
    else Decidable.isFalse (by intro hq; cases hq; exact h rfl)
  | Except.error x, Except.error y =>
    if h : x = y then Decidable.isTrue (by rw [h])
    else Decidable.isFalse (by intro hq; cases hq; exact h rfl)
  | Except.ok _, Except.error _ => Decidable.isFalse (by intro hq; cases hq)
  | Except.error _, Except.ok _ => Decidable.isFalse (by intro hq; cases hq)

/-- The result of one `load` call: the state after it, the remote calls it
issued, and the returned object id or the exception raised. -/
abbrev LoadResult : Type := AppState × List Event × Except Err (Option String)

/-- `_lookup_to_id` (app.py lines 18-28): issue one `AppLookupObject` call;
raise `NotFoundError(response.error_message)` when the response carries no
object id, else return the id. -/
def lookupToId (env : Env) (appName tag : String) (ns : Nat) :
    List Event × Except Err String :=
  let resp := env.appLookupObject appName tag ns
  ([Event.lookup appName tag ns],
    if resp.objectId = "" then Except.error (Err.notFound resp.errorMessage)
    else Except.ok resp.objectId)

/-- The `app_name is not None` branch of `load` (app.py lines 95-103): when an
embedded definition is present, first deploy it under `appName`; then one
cross-application lookup.  The deploy itself is modelled from the spec
(`_Stub` and its `deploy` are not in the excerpt): a single `deploy` event for
a throwaway application whose sole tag is the literal `"_object"` that line
100 of the source assigns it. -/
def crossApp (env : Env) (st : AppState) (appName tag : String) (ns : Nat)
    (odef : Option Obj) : LoadResult :=
  let deployEvs : List Event :=
    match odef with
    | some _ => [Event.deploy appName ["_object"]]
    | none => []
  let lr := lookupToId env appName tag ns
  (st, deployEvs ++ lr.1, lr.2.map some)

/-- App.py line 113: on success of the recursive load of a blueprint entry,
cache the produced id under the tag (`self._tag_to_object[obj.tag] = ...`);
an exception skips the assignment. -/
def cacheTag (tag : String) (rec1 : LoadResult) : LoadResult :=
  match rec1.2.2 with
  | Except.ok oid =>
    ({ rec1.1 with tagToObject := (tag, oid) :: rec1.1.tagToObject },
      rec1.2.1, Except.ok oid)
  | Except.error _ => rec1

/-- Python's `str.startswith(p)`: `p` is a prefix of the string's character
sequence. -/
def strStartsWith (s p : String) : Bool :=
  p.toList.isPrefixOf s.toList

/-- App.py lines 126-135: after a (non-`Ref`) object's creation logic
produced an id, compare it with the supplied `existing_object_id`; a mismatch
raises unless the existing id starts with `"im-"` (content-addressed). -/
def reconcile (existingObjectId : Option String) (run : LoadResult) : LoadResult :=
  match run.2.2 with
  | Except.ok oid =>
    match existingObjectId with
    | some e =>
      if oid = some e then (run.1, run.2.1, Except.ok oid)
      else if strStartsWith e "im-" then (run.1, run.2.1, Except.ok oid)
      else (run.1, run.2.1, Except.error (Err.materializationError e oid))
    | none => (run.1, run.2.1, Except.ok oid)
  | Except.error _ => run

/-- App.py lines 137-142: store the produced id in the memoization cache
(line 137 runs before the `None` check), then raise if the id is `None`, else
return it. -/
def finalize (uuid : String) (body : LoadResult) : LoadResult :=
  match body.2.2 with
  | Except.ok oid =>
    let st2 := { body.1 with
      localUuidToObjectId := (uuid, oid) :: body.1.localUuidToObjectId }
    match oid with
    | none => (st2, body.2.1, Except.error Err.noneObjectId)
    | some _ => (st2, body.2.1, Except.ok oid)
  | Except.error _ => body

/-- App.py lines 93-135 (the branch of `load` on the shape of the object,
reached when the memoization cache misses), parameterized by the engine
functions available at the next-lower fuel level. -/
def loadBodyF
    (loadR : Env → AppState → Obj → Option String → LoadResult)
    (runProgR : Env → String → AppState → Prog → LoadResult)
    (env : Env) (st : AppState) (obj : Obj) (existingObjectId : Option String) :
    LoadResult :=
  match obj with
  | .mkRef _ (some appName) tag ns odef => crossApp env st appName tag ns odef
  | .mkRef _ none tag _ odef =>
    match odef with
    | some _ => (st, [], Except.error Err.assertionError)
    | none =>
      match lookupKey st.tagToObject tag with
      | some oid => (st, [], Except.ok oid)
      | none =>
        match lookupKey env.blueprint tag with
        | none => (st, [], Except.error (Err.keyError tag))
        | some realObj =>
          cacheTag tag (loadR env st realObj (lookupKey st.tagToExistingID tag))
  | .mkDef u logic => reconcile existingObjectId (runProgR env u st logic)

/-- The interception loop of `intercept_coro` around `obj._load`,
parameterized like `loadBodyF`: each dependency the coroutine yields is
loaded by `self.load(awaitable, progress=progress)` (no existing id); when
the coroutine finishes, the kind's own creation call (event `create u`)
returns the coroutine's object id. -/
def runProgF
    (loadR : Env → AppState → Obj → Option String → LoadResult)
    (runProgR : Env → String → AppState → Prog → LoadResult)
    (env : Env) (u : String) (st : AppState) (p : Prog) : LoadResult :=
  match p with
  | .ret oid => (st, [Event.create u], Except.ok oid)
  | .fail msg => (st, [], Except.error (Err.remoteError msg))
  | .dep o rest =>
    let r1 := loadR env st o none
    match r1.2.2 with
    | Except.error e => (r1.1, r1.2.1, Except.error e)
    | Except.ok _ =>
      let r2 := runProgR env u r1.1 rest
      (r2.1, r1.2.1 ++ r2.2.1, r2.2.2)

/-- App.py lines 87-142 parameterized by the body: line 89's memoization
shortcut returns before any remote call; otherwise the branch on the object's
shape computes the id and lines 137-142 (`finalize`) store and validate it. -/
def loadF (bodyR : Env → AppState → Obj → Option String → LoadResult)
    (env : Env) (st : AppState) (obj : Obj) (existingObjectId : Option String) :
    LoadResult :=
  match lookupKey st.localUuidToObjectId obj.localUuid with
  | some cached => (st, [], Except.ok cached)
  | none => finalize (Obj.localUuid obj) (bodyR env st obj existingObjectId)

/-- The engine out of fuel: the embedding's stand-in for a recursion that
diverges in Python (a cyclic definition graph). -/
def noFuelLoad : Env → AppState → Obj → Option String → LoadResult :=
  fun _ st _ _ => (st, [], Except.error Err.outOfFuel)

/-- The pair (`load`, the interception loop) at each fuel level; structural
recursion on the fuel so every run is kernel-computable. -/
def engine : Nat →
    ((Env → AppState → Obj → Option String → LoadResult) ×
      (Env → String → AppState → Prog → LoadResult))
  | 0 =>
    (noFuelLoad,
      runProgF noFuelLoad (fun _ _ st _ => (st, [], Except.error Err.outOfFuel)))
  | fuel + 1 =>
    (loadF (loadBodyF (engine fuel).1 (engine fuel).2),
      runProgF (engine fuel).1 (engine fuel).2)

/-- `_App.load` (app.py lines 87-142).  Returns the state after the call, the
trace of remote calls it issued, and either the produced object id (`none`
when the Python function returns `None` through the memoization shortcut) or
the exception raised. -/
def load (fuel : Nat) : Env → AppState → Obj → Option String → LoadResult :=
  (engine fuel).1

/-- The interception loop of `intercept_coro` around `obj._load` (see
`runProgF`). -/
def runProg (fuel : Nat) : Env → String → AppState → Prog → LoadResult :=
  (engine fuel).2

/-- App.py lines 93-135: the branch of `load` on the shape of the object,
reached when the memoization cache misses (see `loadBodyF`). -/
def loadBody (fuel : Nat) : Env → AppState → Obj → Option String → LoadResult :=
  loadBodyF (load fuel) (runProg fuel)

/-- Concatenation of the key strings of a memoization cache. -/
def joinKeys (l : List (String × Option String)) : String :=
  l.foldr (fun p acc => p.1 ++ acc) ""

/-- Modelled from the spec: `ref(None, tag)` (object.py is not in the
excerpt) allocates a fresh `Reference` whose `LocalUUID` is process-unique,
"created once per definition object; never reused".  What the algorithm
relies on is that the new uuid is not already a key of the session's
memoization cache; realized here by a uuid strictly longer than every key. -/
def freshUuid (l : List (String × Option String)) : String :=
  joinKeys l ++ "@"

/-- The loop of `create_all_objects` (app.py lines 146-148): for each tag of
the blueprint, in iteration order, load the reference `ref(None, tag)`. -/
def loadTags : Nat → Env → AppState → List (String × Obj) →
    AppState × List Event × Except Err Unit
  | _, _, st, [] => (st, [], Except.ok ())
  | fuel, env, st, (tag, _) :: rest =>
    let r1 := load fuel env st
      (Obj.mkRef (freshUuid st.localUuidToObjectId) none tag 0 none) none
    match r1.2.2 with
    | Except.error e => (r1.1, r1.2.1, Except.error e)
    | Except.ok _ =>
      let r2 := loadTags fuel env r1.1 rest
      (r2.1, r1.2.1 ++ r2.2.1, r2.2.2)

/-- `_App.create_all_objects` (app.py lines 144-159): load every blueprint
tag, then issue one `AppSetObjects` call carrying the `tag → object id` map
of `self._tag_to_object`. -/
def createAllObjects (fuel : Nat) (env : Env) (st : AppState) (appId : String) :
    AppState × List Event × Except Err Unit :=
  let r := loadTags fuel env st env.blueprint
  match r.2.2 with
  | Except.error e => (r.1, r.2.1, Except.error e)
  | Except.ok _ =>
    (r.1, r.2.1 ++ [Event.setObjects appId r.1.tagToObject], Except.ok ())

theorem lookupKey_cons_self {β : Type} (k : String) (v : β) (rest : List (String × β)) :
    lookupKey ((k, v) :: rest) k = some v := by
  simp [lookupKey]

theorem lookupKey_cons_ne {β : Type} {k key : String} (v : β) (rest : List (String × β))
    (h : k ≠ key) : lookupKey ((k, v) :: rest) key = lookupKey rest key := by
  simp [lookupKey, h]

theorem lookupKey_eq_none {β : Type} {l : List (String × β)} {key : String}
    (h : ∀ p ∈ l, p.1 ≠ key) : lookupKey l key = none := by
  induction l with
  | nil => rfl
  | cons p rest ih =>
    obtain ⟨k, v⟩ := p
    have hk : k ≠ key := h (k, v) (List.mem_cons_self _ _)
    rw [lookupKey_cons_ne v rest hk]
    exact ih fun q hq => h q (List.mem_cons_of_mem _ hq)

theorem lookupKey_isSome_iff {β : Type} (l : List (String × β)) (key : String) :
    (lookupKey l key).isSome ↔ key ∈ keysOf l := by
  induction l with
  | nil => simp [lookupKey, keysOf]
  | cons p rest ih =>
    obtain ⟨k, v⟩ := p
    by_cases hk : k = key
    · subst hk
      simp [lookupKey_cons_self, keysOf]
    · rw [lookupKey_cons_ne v rest hk]
      simp [keysOf] at ih ⊢
      constructor
      · intro h; exact Or.inr (ih.1 h)
      · rintro (h | h)
        · exact absurd h.symm hk
        · exact ih.2 h

theorem joinKeys_cons (q : String × Option String) (rest : List (String × Option String)) :
    joinKeys (q :: rest) = q.1 ++ joinKeys rest := rfl

theorem key_length_le_joinKeys {l : List (String × Option String)} {p : String × Option String}
    (hp : p ∈ l) : p.1.length ≤ (joinKeys l).length := by
  induction l with
  | nil => cases hp
  | cons q rest ih =>
    rw [joinKeys_cons, String.length_append]
    rcases List.mem_cons.1 hp with h | h
    · subst h; omega
    · have := ih h; omega

theorem freshUuid_lookup_none (l : List (String × Option String)) :
    lookupKey l (freshUuid l) = none := by
  apply lookupKey_eq_none
  intro p hp h
  have h1 : p.1.length ≤ (joinKeys l).length := key_length_le_joinKeys hp
  have h2 : (freshUuid l).length = (joinKeys l).length + 1 := by
    have h3 : ("@" : String).length = 1 := rfl
    simp [freshUuid, String.length_append, h3]
  rw [h] at h1
  omega

theorem finalize_of_error {uuid : String} {body : LoadResult} {e : Err}
    (h : body.2.2 = Except.error e) : finalize uuid body = body := by
  simp [finalize, h]

theorem finalize_of_some {uuid : String} {body : LoadResult} {w : String}
    (h : body.2.2 = Except.ok (some w)) :
    finalize uuid body =
      ({ body.1 with
          localUuidToObjectId := (uuid, some w) :: body.1.localUuidToObjectId },
        body.2.1, Except.ok (some w)) := by
  simp [finalize, h]

theorem finalize_of_none {uuid : String} {body : LoadResult}
    (h : body.2.2 = Except.ok none) :
    finalize uuid body =
      ({ body.1 with
          localUuidToObjectId := (uuid, none) :: body.1.localUuidToObjectId },
        body.2.1, Except.error Err.noneObjectId) := by
  simp [finalize, h]

theorem finalize_ok_inv {uuid : String} {body : LoadResult} {oid : Option String}
    (h : (finalize uuid body).2.2 = Except.ok oid) :
    body.2.2 = Except.ok oid ∧ ∃ w, oid = some w := by
  rcases hb : body.2.2 with e | o
  · rw [finalize_of_error hb] at h
    rw [hb] at h
    exact absurd h (by simp)
  · cases o with
    | none =>
      rw [finalize_of_none hb] at h
      exact absurd h (by simp)
    | some w =>
      rw [finalize_of_some hb] at h
      simp only [] at h
      injection h with h
      subst h
      exact ⟨rfl, w, rfl⟩

theorem finalize_events (uuid : String) (body : LoadResult) :
    (finalize uuid body).2.1 = body.2.1 := by
  rcases hb : body.2.2 with e | o
  · rw [finalize_of_error hb]
  · cases o with
    | none => rw [finalize_of_none hb]
    | some w => rw [finalize_of_some hb]

theorem reconcile_state_events (existingObjectId : Option String) (run : LoadResult) :
    (reconcile existingObjectId run).1 = run.1 ∧
      (reconcile existingObjectId run).2.1 = run.2.1 := by
  rcases hr : run.2.2 with e | o
  · simp [reconcile, hr]
  · cases existingObjectId with
    | none => simp [reconcile, hr]
    | some e =>
      by_cases ho : o = some e
      · simp [reconcile, hr, ho]
      · by_cases him : strStartsWith e "im-" <;> simp [reconcile, hr, ho, him]

theorem reconcile_of_none {run : LoadResult} {oid : Option String}
    (h : run.2.2 = Except.ok oid) :
    reconcile none run = (run.1, run.2.1, Except.ok oid) := by
  simp [reconcile, h]

theorem reconcile_of_error {existingObjectId : Option String} {run : LoadResult} {e : Err}
    (h : run.2.2 = Except.error e) : reconcile existingObjectId run = run := by
  simp [reconcile, h]

theorem reconcile_ok_inv {existingObjectId : Option String} {run : LoadResult}
    {oid : Option String} (h : (reconcile existingObjectId run).2.2 = Except.ok oid) :
    run.2.2 = Except.ok oid := by
  rcases hr : run.2.2 with e | o
  · rw [reconcile_of_error hr] at h
    rw [hr] at h
    exact absurd h (by simp)
  · cases existingObjectId with
    | none =>
      rw [reconcile_of_none hr] at h
      injection h with h
      subst h
      rfl
    | some e =>
      by_cases ho : o = some e
      · simp [reconcile, hr, ho] at h
        rw [ho, h]
      · by_cases him : strStartsWith e "im-"
        · simp [reconcile, hr, ho, him] at h
          rw [h]
        · simp [reconcile, hr, ho, him] at h

theorem cacheTag_of_ok {tag : String} {rec1 : LoadResult} {oid : Option String}
    (h : rec1.2.2 = Except.ok oid) :
    cacheTag tag rec1 =
      ({ rec1.1 with tagToObject := (tag, oid) :: rec1.1.tagToObject },
        rec1.2.1, Except.ok oid) := by
  simp [cacheTag, h]

theorem cacheTag_of_error {tag : String} {rec1 : LoadResult} {e : Err}
    (h : rec1.2.2 = Except.error e) : cacheTag tag rec1 = rec1 := by
  simp [cacheTag, h]

theorem load_zero (env : Env) (st : AppState) (obj : Obj) (ex : Option String) :
    load 0 env st obj ex = (st, [], Except.error Err.outOfFuel) := rfl

theorem load_memo_hit {fuel : Nat} {env : Env} {st : AppState} {obj : Obj}
    {ex : Option String} {v : Option String}
    (h : lookupKey st.localUuidToObjectId (Obj.localUuid obj) = some v) :
    load (fuel + 1) env st obj ex = (st, [], Except.ok v) := by
  simp [load, engine, loadF, h]

theorem load_memo_miss {fuel : Nat} {env : Env} {st : AppState} {obj : Obj}
    {ex : Option String}
    (h : lookupKey st.localUuidToObjectId (Obj.localUuid obj) = none) :
    load (fuel + 1) env st obj ex =
      finalize (Obj.localUuid obj) (loadBody fuel env st obj ex) := by
  simp [load, runProg, loadBody, engine, loadF, h]

theorem loadBody_crossApp (fuel : Nat) (env : Env) (st : AppState) (u : String)
    (appName tag : String) (ns : Nat) (odef : Option Obj) (ex : Option String) :
    loadBody fuel env st (Obj.mkRef u (some appName) tag ns odef) ex =
      crossApp env st appName tag ns odef := by
  simp [loadBody, loadBodyF]

theorem loadBody_assert (fuel : Nat) (env : Env) (st : AppState) (u : String)
    (tag : String) (ns : Nat) (d : Obj) (ex : Option String) :
    loadBody fuel env st (Obj.mkRef u none tag ns (some d)) ex =
      (st, [], Except.error Err.assertionError) := by
  simp [loadBody, loadBodyF]

theorem loadBody_sameApp_hit {fuel : Nat} {env : Env} {st : AppState} {u : String}
    {tag : String} {ns : Nat} {ex : Option String} {oid : Option String}
    (h : lookupKey st.tagToObject tag = some oid) :
    loadBody fuel env st (Obj.mkRef u none tag ns none) ex =
      (st, [], Except.ok oid) := by
  simp [loadBody, loadBodyF, h]

theorem loadBody_sameApp_missing {fuel : Nat} {env : Env} {st : AppState} {u : String}
    {tag : String} {ns : Nat} {ex : Option String}
    (h : lookupKey st.tagToObject tag = none)
    (hb : lookupKey env.blueprint tag = none) :
    loadBody fuel env st (Obj.mkRef u none tag ns none) ex =
      (st, [], Except.error (Err.keyError tag)) := by
  simp [loadBody, loadBodyF, h, hb]

theorem loadBody_sameApp_fresh {fuel : Nat} {env : Env} {st : AppState} {u : String}
    {tag : String} {ns : Nat} {ex : Option String} {realObj : Obj}
    (h : lookupKey st.tagToObject tag = none)
    (hb : lookupKey env.blueprint tag = some realObj) :
    loadBody fuel env st (Obj.mkRef u none tag ns none) ex =
      cacheTag tag (load fuel env st realObj (lookupKey st.tagToExistingID tag)) := by
  simp [loadBody, loadBodyF, h, hb]

theorem loadBody_mkDef (fuel : Nat) (env : Env) (st : AppState) (u : String)
    (logic : Prog) (ex : Option String) :
    loadBody fuel env st (Obj.mkDef u logic) ex =
      reconcile ex (runProg fuel env u st logic) := by
  simp [loadBody, loadBodyF]

theorem runProg_ret (fuel : Nat) (env : Env) (u : String) (st : AppState)
    (oid : Option String) :
    runProg fuel env u st (Prog.ret oid) = (st, [Event.create u], Except.ok oid) := by
  cases fuel <;> simp [runProg, engine, runProgF]

theorem runProg_fail (fuel : Nat) (env : Env) (u : String) (st : AppState)
    (msg : String) :
    runProg fuel env u st (Prog.fail msg) =
      (st, [], Except.error (Err.remoteError msg)) := by
  cases fuel <;> simp [runProg, engine, runProgF]

theorem runProg_zero_dep (env : Env) (u : String) (st : AppState) (o : Obj)
    (rest : Prog) :
    runProg 0 env u st (Prog.dep o rest) =
      (st, [], Except.error Err.outOfFuel) := rfl

theorem runProg_dep_error {fuel : Nat} {env : Env} {u : String} {st : AppState}
    {o : Obj} {rest : Prog} {e : Err}
    (h : (load fuel env st o none).2.2 = Except.error e) :
    runProg (fuel + 1) env u st (Prog.dep o rest) =
      ((load fuel env st o none).1, (load fuel env st o none).2.1, Except.error e) := by
  have e1 : runProg (fuel + 1) env u st (Prog.dep o rest) =
      runProgF (load fuel) (runProg fuel) env u st (Prog.dep o rest) := rfl
  rw [e1]
  simp [runProgF, h]

theorem runProg_dep_ok {fuel : Nat} {env : Env} {u : String} {st : AppState}
    {o : Obj} {rest : Prog} {w : Option String}
    (h : (load fuel env st o none).2.2 = Except.ok w) :
    runProg (fuel + 1) env u st (Prog.dep o rest) =
      ((runProg fuel env u (load fuel env st o none).1 rest).1,
        (load fuel env st o none).2.1 ++
          (runProg fuel env u (load fuel env st o none).1 rest).2.1,
        (runProg fuel env u (load fuel env st o none).1 rest).2.2) := by
  have e1 : runProg (fuel + 1) env u st (Prog.dep o rest) =
      runProgF (load fuel) (runProg fuel) env u st (Prog.dep o rest) := rfl
  rw [e1]
  simp [runProgF, h]

theorem crossApp_somedef (env : Env) (st : AppState) (an tag : String) (ns : Nat)
    (d : Obj) :
    crossApp env st an tag ns (some d) =
      (st, [Event.deploy an ["_object"], Event.lookup an tag ns],
        (lookupToId env an tag ns).2.map some) := by
  simp [crossApp, lookupToId]

theorem crossApp_nodef (env : Env) (st : AppState) (an tag : String) (ns : Nat) :
    crossApp env st an tag ns none =
      (st, [Event.lookup an tag ns], (lookupToId env an tag ns).2.map some) := by
  simp [crossApp, lookupToId]

/-- Facts preserved by every `load`/`runProg` call: entries of the entry
state's caches are still present afterwards, `_tag_to_existing_id` is never
written, new `_tag_to_object` keys come from the blueprint, and no event of
the trace is an `AppSetObjects` call. -/
def presStep (env : Env) (st st' : AppState) (evs : List Event) : Prop :=
  (∀ u v, lookupKey st.localUuidToObjectId u = some v →
      lookupKey st'.localUuidToObjectId u = some v) ∧
  (∀ t v, lookupKey st.tagToObject t = some v → lookupKey st'.tagToObject t = some v) ∧
  st'.tagToExistingID = st.tagToExistingID ∧
  (∀ t, (lookupKey st'.tagToObject t).isSome →
      (lookupKey st.tagToObject t).isSome ∨ (lookupKey env.blueprint t).isSome) ∧
  (∀ e ∈ evs, e.isSetObjects = false)

theorem presStep_rfl_evs (env : Env) (st : AppState) (evs : List Event)
    (h : ∀ e ∈ evs, e.isSetObjects = false) : presStep env st st evs :=
  ⟨fun _ _ h => h, fun _ _ h => h, rfl, fun _ h => Or.inl h, h⟩

theorem presStep_rfl (env : Env) (st : AppState) : presStep env st st [] :=
  presStep_rfl_evs env st [] (by simp)

theorem presStep_trans {env : Env} {st st' st'' : AppState} {evs1 evs2 : List Event}
    (h1 : presStep env st st' evs1) (h2 : presStep env st' st'' evs2) :
    presStep env st st'' (evs1 ++ evs2) := by
  obtain ⟨m1, t1, e1, s1, v1⟩ := h1
  obtain ⟨m2, t2, e2, s2, v2⟩ := h2
  refine ⟨fun u v h => m2 u v (m1 u v h), fun t v h => t2 t v (t1 t v h),
    e2.trans e1, fun t h => ?_, fun e he => ?_⟩
  · rcases s2 t h with h' | h'
    · exact s1 t h'
    · exact Or.inr h'
  · rcases List.mem_append.1 he with h | h
    · exact v1 e h
    · exact v2 e h

theorem presStep_finalize {env : Env} {st : AppState} {uuid : String}
    {body : LoadResult}
    (hmiss : lookupKey st.localUuidToObjectId uuid = none)
    (h : presStep env st body.1 body.2.1) :
    presStep env st (finalize uuid body).1 (finalize uuid body).2.1 := by
  obtain ⟨hm, ht, he, hs, hv⟩ := h
  have hcons : ∀ w : Option String,
      presStep env st
        ({ body.1 with
            localUuidToObjectId := (uuid, w) :: body.1.localUuidToObjectId })
        body.2.1 := by
    intro w
    refine ⟨fun u v hu => ?_, ht, he, hs, hv⟩
    have hne : uuid ≠ u := by
      intro hq
      rw [hq] at hmiss
      rw [hmiss] at hu
      cases hu
    rw [lookupKey_cons_ne _ _ hne]
    exact hm u v hu
  rcases hb : body.2.2 with e | o
  · rw [finalize_of_error hb]
    exact ⟨hm, ht, he, hs, hv⟩
  · cases o with
    | none => rw [finalize_of_none hb]; exact hcons none
    | some w => rw [finalize_of_some hb]; exact hcons (some w)

theorem presStep_cacheTag {env : Env} {st : AppState} {tag : String}
    {rec1 : LoadResult} {robj : Obj}
    (ht : lookupKey st.tagToObject tag = none)
    (hb : lookupKey env.blueprint tag = some robj)
    (h : presStep env st rec1.1 rec1.2.1) :
    presStep env st (cacheTag tag rec1).1 (cacheTag tag rec1).2.1 := by
  obtain ⟨hm, htt, he, hs, hv⟩ := h
  rcases hr : rec1.2.2 with e | o
  · rw [cacheTag_of_error hr]
    exact ⟨hm, htt, he, hs, hv⟩
  · rw [cacheTag_of_ok hr]
    refine ⟨hm, fun t v hu => ?_, he, fun t hsome => ?_, hv⟩
    · have hne : tag ≠ t := by
        intro hq
        rw [hq] at ht
        rw [ht] at hu
        cases hu
      rw [lookupKey_cons_ne _ _ hne]
      exact htt t v hu
    · by_cases hq : tag = t
      · subst hq
        exact Or.inr (by rw [hb]; rfl)
      · rw [lookupKey_cons_ne _ _ hq] at hsome
        exact hs t hsome

theorem presStep_reconcile {env : Env} {st : AppState} (ex : Option String)
    {run : LoadResult} (h : presStep env st run.1 run.2.1) :
    presStep env st (reconcile ex run).1 (reconcile ex run).2.1 := by
  rw [(reconcile_state_events ex run).1, (reconcile_state_events ex run).2]
  exact h

/-- The cache/trace invariant holds for every `load` and every `runProg`
call. -/
theorem loadInv : ∀ fuel : Nat,
    (∀ env st obj ex,
      presStep env st (load fuel env st obj ex).1 (load fuel env st obj ex).2.1) ∧
    (∀ env u st p,
      presStep env st (runProg fuel env u st p).1 (runProg fuel env u st p).2.1) := by
  intro fuel
  induction fuel with
  | zero =>
    constructor
    · intro env st obj ex
      rw [load_zero]
      exact presStep_rfl env st
    · intro env u st p
      cases p with
      | ret oid =>
        rw [runProg_ret]
        exact presStep_rfl_evs env st _ (by simp [Event.isSetObjects])
      | fail msg =>
        rw [runProg_fail]
        exact presStep_rfl env st
      | dep o rest =>
        rw [runProg_zero_dep]
        exact presStep_rfl env st
  | succ fuel ih =>
    obtain ⟨ihL, ihP⟩ := ih
    constructor
    · intro env st obj ex
      cases hm : lookupKey st.localUuidToObjectId (Obj.localUuid obj) with
      | some v =>
        rw [load_memo_hit hm]
        exact presStep_rfl env st
      | none =>
        rw [load_memo_miss hm]
        apply presStep_finalize hm
        cases obj with
        | mkRef u appName tag ns odef =>
          cases appName with
          | some an =>
            rw [loadBody_crossApp]
            cases odef with
            | some d =>
              rw [crossApp_somedef]
              exact presStep_rfl_evs env st _ (by simp [Event.isSetObjects])
            | none =>
              rw [crossApp_nodef]
              exact presStep_rfl_evs env st _ (by simp [Event.isSetObjects])
          | none =>
            cases odef with
            | some d =>
              rw [loadBody_assert]
              exact presStep_rfl env st
            | none =>
              cases ht : lookupKey st.tagToObject tag with
              | some oid =>
                rw [loadBody_sameApp_hit ht]
                exact presStep_rfl env st
              | none =>
                cases hb : lookupKey env.blueprint tag with
                | none =>
                  rw [loadBody_sameApp_missing ht hb]
                  exact presStep_rfl env st
                | some robj =>
                  rw [loadBody_sameApp_fresh ht hb]
                  exact presStep_cacheTag ht hb (ihL env st robj _)
        | mkDef u logic =>
          rw [loadBody_mkDef]
          exact presStep_reconcile ex (ihP env u st logic)
    · intro env u st p
      cases p with
      | ret oid =>
        rw [runProg_ret]
        exact presStep_rfl_evs env st _ (by simp [Event.isSetObjects])
      | fail msg =>
        rw [runProg_fail]
        exact presStep_rfl env st
      | dep o rest =>
        cases hr : (load fuel env st o none).2.2 with
        | error e =>
          rw [runProg_dep_error hr]
          exact ihL env st o none
        | ok w =>
          rw [runProg_dep_ok hr]
          exact presStep_trans (ihL env st o none)
            (ihP env u (load fuel env st o none).1 rest)

theorem localUuid_mkRef (u : String) (a : Option String) (t : String) (n : Nat)
    (d : Option Obj) : Obj.localUuid (Obj.mkRef u a t n d) = u := rfl

theorem localUuid_mkDef (u : String) (p : Prog) :
    Obj.localUuid (Obj.mkDef u p) = u := rfl

theorem cacheTag_ok_inv {tag : String} {rec1 : LoadResult} {oid : Option String}
    (h : (cacheTag tag rec1).2.2 = Except.ok oid) : rec1.2.2 = Except.ok oid := by
  rcases hr : rec1.2.2 with e | o
  · rw [cacheTag_of_error hr] at h
    rw [hr] at h
    exact absurd h (by simp)
  · rw [cacheTag_of_ok hr] at h
    injection h with h
    subst h
    rfl

/-- A `load` call that returns an object id leaves that id in the memoization
cache under the object's uuid (line 137, or line 91 when it was already
there). -/
theorem load_ok_memo {fuel : Nat} {env : Env} {st : AppState} {obj : Obj}
    {ex : Option String} {st' : AppState} {evs : List Event} {oid : Option String}
    (h : load fuel env st obj ex = (st', evs, Except.ok oid)) :
    lookupKey st'.localUuidToObjectId (Obj.localUuid obj) = some oid := by
  cases fuel with
  | zero =>
    rw [load_zero] at h
    exact absurd (congrArg (fun r => r.2.2) h) (by simp)
  | succ fuel =>
    cases hm : lookupKey st.localUuidToObjectId (Obj.localUuid obj) with
    | some v =>
      rw [load_memo_hit hm] at h
      injection h with h1 h2
      injection h2 with h2a h2b
      injection h2b with h2c
      subst h1
      subst h2c
      exact hm
    | none =>
      rw [load_memo_miss hm] at h
      have hok : (finalize (Obj.localUuid obj) (loadBody fuel env st obj ex)).2.2 =
          Except.ok oid := by rw [h]
      obtain ⟨hbody, w, hw⟩ := finalize_ok_inv hok
      subst hw
      rw [finalize_of_some hbody] at h
      injection h with h1 h2
      rw [← h1]
      exact lookupKey_cons_self _ _ _

/-- A `load` call that did not hit the memoization cache only returns `ok`
with an actual id (the `None` produced case raises instead, line 139). -/
theorem load_fresh_ok_some {fuel : Nat} {env : Env} {st : AppState} {obj : Obj}
    {ex : Option String} {oid : Option String}
    (hm : lookupKey st.localUuidToObjectId (Obj.localUuid obj) = none)
    (h : (load (fuel + 1) env st obj ex).2.2 = Except.ok oid) :
    ∃ w, oid = some w := by
  rw [load_memo_miss hm] at h
  exact (finalize_ok_inv h).2

/-- A successful same-application reference load leaves the produced id
cached under the tag in `_tag_to_object` (lines 107-113). -/
theorem load_sameApp_ok_tag {fuel : Nat} {env : Env} {st : AppState} {u : String}
    {tag : String} {ns : Nat} {ex : Option String} {st' : AppState}
    {evs : List Event} {oid : Option String}
    (hm : lookupKey st.localUuidToObjectId u = none)
    (h : load (fuel + 1) env st (Obj.mkRef u none tag ns none) ex =
      (st', evs, Except.ok oid)) :
    lookupKey st'.tagToObject tag = some oid := by
  have hm' : lookupKey st.localUuidToObjectId
      (Obj.localUuid (Obj.mkRef u none tag ns none)) = none := hm
  rw [load_memo_miss hm'] at h
  have hok : (finalize (Obj.localUuid (Obj.mkRef u none tag ns none))
      (loadBody fuel env st (Obj.mkRef u none tag ns none) ex)).2.2 =
      Except.ok oid := by rw [h]
  obtain ⟨hbody, w, hw⟩ := finalize_ok_inv hok
  subst hw
  rw [finalize_of_some hbody] at h
  injection h with h1 h2
  rw [← h1]
  cases ht : lookupKey st.tagToObject tag with
  | some o1 =>
    rw [loadBody_sameApp_hit ht] at hbody
    injection hbody with hb
    rw [loadBody_sameApp_hit ht]
    rw [hb] at ht
    exact ht
  | none =>
    cases hb : lookupKey env.blueprint tag with
    | none =>
      rw [loadBody_sameApp_missing ht hb] at hbody
      exact absurd hbody (by simp)
    | some robj =>
      rw [loadBody_sameApp_fresh ht hb] at hbody ⊢
      have hrec : (load fuel env st robj (lookupKey st.tagToExistingID tag)).2.2 =
          Except.ok (some w) := cacheTag_ok_inv hbody
      rw [cacheTag_of_ok hrec]
      exact lookupKey_cons_self _ _ _

theorem loadTags_nil (fuel : Nat) (env : Env) (st : AppState) :
    loadTags fuel env st [] = (st, [], Except.ok ()) := by
  simp [loadTags]

theorem loadTags_cons_error {fuel : Nat} {env : Env} {st : AppState}
    {tag : String} {o : Obj} {rest : List (String × Obj)} {e : Err}
    (h : (load fuel env st
        (Obj.mkRef (freshUuid st.localUuidToObjectId) none tag 0 none) none).2.2 =
      Except.error e) :
    loadTags fuel env st ((tag, o) :: rest) =
      ((load fuel env st
          (Obj.mkRef (freshUuid st.localUuidToObjectId) none tag 0 none) none).1,
        (load fuel env st
          (Obj.mkRef (freshUuid st.localUuidToObjectId) none tag 0 none) none).2.1,
        Except.error e) := by
  simp [loadTags, h]

theorem loadTags_cons_ok {fuel : Nat} {env : Env} {st : AppState}
    {tag : String} {o : Obj} {rest : List (String × Obj)} {w : Option String}
    (h : (load fuel env st
        (Obj.mkRef (freshUuid st.localUuidToObjectId) none tag 0 none) none).2.2 =
      Except.ok w) :
    loadTags fuel env st ((tag, o) :: rest) =
      ((loadTags fuel env
          (load fuel env st
            (Obj.mkRef (freshUuid st.localUuidToObjectId) none tag 0 none) none).1
          rest).1,
        (load fuel env st
          (Obj.mkRef (freshUuid st.localUuidToObjectId) none tag 0 none) none).2.1 ++
          (loadTags fuel env
            (load fuel env st
              (Obj.mkRef (freshUuid st.localUuidToObjectId) none tag 0 none) none).1
            rest).2.1,
        (loadTags fuel env
          (load fuel env st
            (Obj.mkRef (freshUuid st.localUuidToObjectId) none tag 0 none) none).1
          rest).2.2) := by
  simp [loadTags, h]

/-- The cache/trace invariant lifted to the loop of `create_all_objects`. -/
theorem loadTagsInv (fuel : Nat) (env : Env) :
    ∀ (bp : List (String × Obj)) (st : AppState),
      presStep env st (loadTags fuel env st bp).1 (loadTags fuel env st bp).2.1 := by
  intro bp
  induction bp with
  | nil =>
    intro st
    rw [loadTags_nil]
    exact presStep_rfl env st
  | cons p rest ih =>
    intro st
    obtain ⟨tag, o⟩ := p
    cases hr : (load fuel env st
        (Obj.mkRef (freshUuid st.localUuidToObjectId) none tag 0 none) none).2.2 with
    | error e =>
      rw [loadTags_cons_error hr]
      exact (loadInv fuel).1 env st _ none
    | ok w =>
      rw [loadTags_cons_ok hr]
      exact presStep_trans ((loadInv fuel).1 env st _ none) (ih _)

theorem progDeps_ret (o : Option String) : progDeps (Prog.ret o) = [] := rfl

theorem progDeps_fail (m : String) : progDeps (Prog.fail m) = [] := rfl

theorem progDeps_dep (o : Obj) (rest : Prog) :
    progDeps (Prog.dep o rest) = o :: progDeps rest := rfl

/-- Every blueprint tag has a `_tag_to_object` entry once the loop of
`create_all_objects` has finished successfully. -/
theorem loadTags_ok_tags (fuel : Nat) (env : Env) :
    ∀ (bp : List (String × Obj)) (st st' : AppState) (evs : List Event),
      loadTags fuel env st bp = (st', evs, Except.ok ()) →
      ∀ p ∈ bp, (lookupKey st'.tagToObject p.1).isSome := by
  intro bp
  induction bp with
  | nil =>
    intro st st' evs h p hp
    cases hp
  | cons q rest ih =>
    intro st st' evs h p hp
    obtain ⟨tag, o⟩ := q
    cases hr : (load fuel env st
        (Obj.mkRef (freshUuid st.localUuidToObjectId) none tag 0 none) none).2.2 with
    | error e =>
      rw [loadTags_cons_error hr] at h
      exact absurd (congrArg (fun r => r.2.2) h) (by simp)
    | ok w =>
      rw [loadTags_cons_ok hr] at h
      have h1 := congrArg (fun r => r.1) h
      have h3 := congrArg (fun r => r.2.2) h
      simp only [] at h1 h3
      cases fuel with
      | zero =>
        rw [load_zero] at hr
        exact absurd hr (by simp)
      | succ f =>
        have hload : load (f + 1) env st
            (Obj.mkRef (freshUuid st.localUuidToObjectId) none tag 0 none) none =
            ((load (f + 1) env st
              (Obj.mkRef (freshUuid st.localUuidToObjectId) none tag 0 none) none).1,
              (load (f + 1) env st
                (Obj.mkRef (freshUuid st.localUuidToObjectId) none tag 0 none) none).2.1,
              Except.ok w) := by
          rw [← hr]
        have htag := load_sameApp_ok_tag
          (freshUuid_lookup_none st.localUuidToObjectId) hload
        have hrest : loadTags (f + 1) env
            (load (f + 1) env st
              (Obj.mkRef (freshUuid st.localUuidToObjectId) none tag 0 none) none).1
            rest =
            ((loadTags (f + 1) env
              (load (f + 1) env st
                (Obj.mkRef (freshUuid st.localUuidToObjectId) none tag 0 none) none).1
              rest).1,
              (loadTags (f + 1) env
                (load (f + 1) env st
                  (Obj.mkRef (freshUuid st.localUuidToObjectId) none tag 0 none) none).1
                rest).2.1,
              Except.ok ()) := by
          rw [← h3]
        rcases List.mem_cons.1 hp with hpq | hprest
        · subst hpq
          have hpres := loadTagsInv (f + 1) env rest
            (load (f + 1) env st
              (Obj.mkRef (freshUuid st.localUuidToObjectId) none tag 0 none) none).1
          have := hpres.2.1 tag w htag
          rw [h1] at this
          rw [this]
          rfl
        · have := ih _ _ _ hrest p hprest
          rw [h1] at this
          exact this

theorem createAllObjects_eq_ok {fuel : Nat} {env : Env} {st : AppState}
    {appId : String}
    (h : (loadTags fuel env st env.blueprint).2.2 = Except.ok ()) :
    createAllObjects fuel env st appId =
      ((loadTags fuel env st env.blueprint).1,
        (loadTags fuel env st env.blueprint).2.1 ++
          [Event.setObjects appId (loadTags fuel env st env.blueprint).1.tagToObject],
        Except.ok ()) := by
  simp [createAllObjects, h]

theorem createAllObjects_eq_error {fuel : Nat} {env : Env} {st : AppState}
    {appId : String} {e : Err}
    (h : (loadTags fuel env st env.blueprint).2.2 = Except.error e) :
    createAllObjects fuel env st appId =
      ((loadTags fuel env st env.blueprint).1,
        (loadTags fuel env st env.blueprint).2.1, Except.error e) := by
  simp [createAllObjects, h]

/-- A successful run of a creation coroutine issues the kind's own creation
call last, and every dependency it requested has a memoized id afterwards. -/
theorem runProg_ok_shape (env : Env) (u : String) :
    ∀ (fuel : Nat) (p : Prog) (st st' : AppState) (evs : List Event)
      (oid : Option String),
      runProg fuel env u st p = (st', evs, Except.ok oid) →
      (∃ evs0, evs = evs0 ++ [Event.create u]) ∧
      (∀ d ∈ progDeps p,
        (lookupKey st'.localUuidToObjectId (Obj.localUuid d)).isSome) := by
  have base : ∀ (fuel : Nat) (o : Option String) (st st' : AppState)
      (evs : List Event) (oid : Option String),
      runProg fuel env u st (Prog.ret o) = (st', evs, Except.ok oid) →
      (∃ evs0, evs = evs0 ++ [Event.create u]) ∧
      (∀ d ∈ progDeps (Prog.ret o),
        (lookupKey st'.localUuidToObjectId (Obj.localUuid d)).isSome) := by
    intro fuel o st st' evs oid h
    rw [runProg_ret] at h
    have h2 := congrArg (fun r => r.2.1) h
    simp only [] at h2
    refine ⟨⟨[], by rw [← h2]; rfl⟩, ?_⟩
    intro d hd
    rw [progDeps_ret] at hd
    cases hd
  intro fuel
  induction fuel with
  | zero =>
    intro p st st' evs oid h
    cases p with
    | ret o => exact base 0 o st st' evs oid h
    | fail m =>
      rw [runProg_fail] at h
      exact absurd (congrArg (fun r => r.2.2) h) (by simp)
    | dep o rest =>
      rw [runProg_zero_dep] at h
      exact absurd (congrArg (fun r => r.2.2) h) (by simp)
  | succ fuel ih =>
    intro p st st' evs oid h
    cases p with
    | ret o => exact base (fuel + 1) o st st' evs oid h
    | fail m =>
      rw [runProg_fail] at h
      exact absurd (congrArg (fun r => r.2.2) h) (by simp)
    | dep o rest =>
      cases hr : (load fuel env st o none).2.2 with
      | error e =>
        rw [runProg_dep_error hr] at h
        exact absurd (congrArg (fun r => r.2.2) h) (by simp)
      | ok w =>
        rw [runProg_dep_ok hr] at h
        have h1 := congrArg (fun r => r.1) h
        have h2 := congrArg (fun r => r.2.1) h
        have h3 := congrArg (fun r => r.2.2) h
        simp only [] at h1 h2 h3
        have hrest : runProg fuel env u (load fuel env st o none).1 rest =
            ((runProg fuel env u (load fuel env st o none).1 rest).1,
              (runProg fuel env u (load fuel env st o none).1 rest).2.1,
              Except.ok oid) := by
          rw [← h3]
        obtain ⟨⟨evs0, hevs0⟩, hdeps⟩ := ih rest _ _ _ _ hrest
        constructor
        · refine ⟨(load fuel env st o none).2.1 ++ evs0, ?_⟩
          rw [← h2, hevs0, List.append_assoc]
        · intro d hd
          rw [progDeps_dep] at hd
          rcases List.mem_cons.1 hd with hdo | hdrest
          · subst hdo
            have hload : load fuel env st d none =
                ((load fuel env st d none).1, (load fuel env st d none).2.1,
                  Except.ok w) := by
              rw [← hr]
            have hmem := load_ok_memo hload
            have hpres := ((loadInv fuel).2 env u (load fuel env st d none).1 rest).1
            have := hpres (Obj.localUuid d) w hmem
            rw [h1] at this
            rw [this]
            rfl
          · have := hdeps d hdrest
            rw [h1] at this
            exact this

theorem lookupKey_cons_isSome {β : Type} {l : List (String × β)} {key : String}
    (p : String × β) (h : (lookupKey l key).isSome) :
    (lookupKey (p :: l) key).isSome := by
  obtain ⟨k, v⟩ := p
  by_cases hk : k = key
  · subst hk
    rw [lookupKey_cons_self]
    rfl
  · rw [lookupKey_cons_ne v l hk]
    exact h

/-- A fresh session state: `_App.__init__` with no prior deployment. -/
def stEmpty : AppState := ⟨[], [], []⟩

/-- An environment with an empty blueprint whose registry answers every
lookup with "not found". -/
def envNull : Env := ⟨[], fun _ _ _ => ⟨"", "no such object"⟩⟩

/-- C1 — Memoization / append-only cache: once `localUUIDToObjectID` holds an
id `v` for LocalUUID `u`, (a) loading any node with that LocalUUID returns
`v` immediately, with zero remote calls, no creation logic, and an unchanged
session state; (b) no later `load` call, on any node, ever overwrites or
drops the entry; and (c) whenever a `load` call returns an id, that id is
what the cache holds for the node's LocalUUID afterwards, so the value
returned in (a) is the one the first, storing call produced. -/
theorem c1_memoization (env : Env) (st : AppState) (u : String) (v : Option String)
    (h : lookupKey st.localUuidToObjectId u = some v) :
    (∀ (fuel : Nat) (obj : Obj) (ex : Option String), Obj.localUuid obj = u →
      load (fuel + 1) env st obj ex = (st, [], Except.ok v)) ∧
    (∀ (fuel : Nat) (obj' : Obj) (ex' : Option String),
      lookupKey (load fuel env st obj' ex').1.localUuidToObjectId u = some v) ∧
    (∀ (fuel : Nat) (obj : Obj) (ex : Option String) (st' : AppState)
      (evs : List Event) (oid : Option String),
      load fuel env st obj ex = (st', evs, Except.ok oid) →
      lookupKey st'.localUuidToObjectId (Obj.localUuid obj) = some oid) := by
  refine ⟨?_, ?_, ?_⟩
  · intro fuel obj ex hobj
    apply load_memo_hit
    rw [hobj]
    exact h
  · intro fuel obj' ex'
    exact ((loadInv fuel).1 env st obj' ex').1 u v h
  · intro fuel obj ex st' evs oid hl
    exact load_ok_memo hl

/-- A state whose memoization cache already holds an id for `"u1"`. -/
def stC1 : AppState := ⟨[], [], [("u1", some "fn-1")]⟩

theorem c1_memoization_witness :
    load 1 envNull stC1 (Obj.mkDef "u1" (Prog.ret (some "fn-9"))) none =
      (stC1, [], Except.ok (some "fn-1")) :=
  (c1_memoization envNull stC1 "u1" (some "fn-1") rfl).1 0
    (Obj.mkDef "u1" (Prog.ret (some "fn-9"))) none rfl

/-- C8 — Unresolved tag is a raised defect: a same-application reference (no
appName, no embedded definition) whose tag is neither cached nor a key of the
Definition Graph makes `load` raise `KeyError` immediately: no remote call is
issued and the session state is unchanged. -/
theorem c8_unresolved_tag (fuel : Nat) (env : Env) (st : AppState) (u tag : String)
    (ns : Nat) (ex : Option String)
    (hm : lookupKey st.localUuidToObjectId u = none)
    (ht : lookupKey st.tagToObject tag = none)
    (hb : lookupKey env.blueprint tag = none) :
    load (fuel + 1) env st (Obj.mkRef u none tag ns none) ex =
      (st, [], Except.error (Err.keyError tag)) := by
  have hm' : lookupKey st.localUuidToObjectId
      (Obj.localUuid (Obj.mkRef u none tag ns none)) = none := hm
  rw [load_memo_miss hm', loadBody_sameApp_missing ht hb, finalize_of_error rfl]

theorem c8_unresolved_tag_witness :
    load 1 envNull stEmpty (Obj.mkRef "u8" none "missing" 0 none) none =
      (stEmpty, [], Except.error (Err.keyError "missing")) :=
  c8_unresolved_tag 0 envNull stEmpty "u8" "missing" 0 none rfl rfl rfl

/-- C9 — Lookup not-found behavior: `_lookup_to_id` issues exactly one
`AppLookupObject` call; if the response carries no object id it raises
`NotFoundError` with the response's error message, else it returns the id;
and through the cross-application branch of `load` the error surfaces to the
caller unchanged, with no retry (still exactly one lookup event). -/
theorem c9_lookup_not_found (env : Env) (appName tag : String) (ns : Nat) :
    (((env.appLookupObject appName tag ns).objectId = "" →
      lookupToId env appName tag ns =
        ([Event.lookup appName tag ns],
          Except.error (Err.notFound (env.appLookupObject appName tag ns).errorMessage))) ∧
    ((env.appLookupObject appName tag ns).objectId ≠ "" →
      lookupToId env appName tag ns =
        ([Event.lookup appName tag ns],
          Except.ok (env.appLookupObject appName tag ns).objectId))) ∧
    (∀ (fuel : Nat) (st : AppState) (u : String) (ex : Option String),
      lookupKey st.localUuidToObjectId u = none →
      (env.appLookupObject appName tag ns).objectId = "" →
      load (fuel + 1) env st (Obj.mkRef u (some appName) tag ns none) ex =
        (st, [Event.lookup appName tag ns],
          Except.error (Err.notFound (env.appLookupObject appName tag ns).errorMessage))) := by
  refine ⟨⟨?_, ?_⟩, ?_⟩
  · intro h
    simp [lookupToId, h]
  · intro h
    simp [lookupToId, h]
  · intro fuel st u ex hm hempty
    have hm' : lookupKey st.localUuidToObjectId
        (Obj.localUuid (Obj.mkRef u (some appName) tag ns none)) = none := hm
    rw [load_memo_miss hm', loadBody_crossApp, crossApp_nodef]
    have hlr : (lookupToId env appName tag ns).2 =
        Except.error (Err.notFound (env.appLookupObject appName tag ns).errorMessage) := by
      simp [lookupToId, hempty]
    rw [finalize_of_error (by rw [hlr]; rfl)]
    rw [hlr]
    rfl

theorem c9_lookup_not_found_witness :
    lookupToId envNull "other-app" "q" 0 =
      ([Event.lookup "other-app" "q" 0],
        Except.error (Err.notFound "no such object")) ∧
    load 1 envNull stEmpty (Obj.mkRef "u9" (some "other-app") "q" 0 none) none =
      (stEmpty, [Event.lookup "other-app" "q" 0],
        Except.error (Err.notFound "no such object")) :=
  ⟨(c9_lookup_not_found envNull "other-app" "q" 0).1.1 rfl,
    (c9_lookup_not_found envNull "other-app" "q" 0).2 0 stEmpty "u9" none rfl rfl⟩

/-- C10 — Implicit: line 137 stores the produced id before line 139 validates
it, so creation logic yielding `None` makes the first `load` raise
`noneObjectId` while caching `None` under the node's LocalUUID; any later
load of a node with that LocalUUID short-circuits on the memoization check
and returns `None` without raising. -/
theorem c10_none_cached (fuel g : Nat) (env : Env) (st : AppState) (u : String)
    (logic : Prog) (st1 : AppState) (evs : List Event)
    (hm : lookupKey st.localUuidToObjectId u = none)
    (hrun : runProg fuel env u st logic = (st1, evs, Except.ok none)) :
    load (fuel + 1) env st (Obj.mkDef u logic) none =
      ({ st1 with localUuidToObjectId := (u, none) :: st1.localUuidToObjectId },
        evs, Except.error Err.noneObjectId) ∧
    (∀ (obj : Obj) (ex : Option String), Obj.localUuid obj = u →
      load (g + 1) env
        { st1 with localUuidToObjectId := (u, none) :: st1.localUuidToObjectId }
        obj ex =
        ({ st1 with localUuidToObjectId := (u, none) :: st1.localUuidToObjectId },
          [], Except.ok none)) := by
  constructor
  · have hm' : lookupKey st.localUuidToObjectId
        (Obj.localUuid (Obj.mkDef u logic)) = none := hm
    rw [load_memo_miss hm', loadBody_mkDef, hrun,
      reconcile_of_none (show (st1, evs, Except.ok none).2.2 = Except.ok none from rfl)]
    rw [finalize_of_none rfl]
    rfl
  · intro obj ex hobj
    apply load_memo_hit
    rw [hobj]
    exact lookupKey_cons_self _ _ _

theorem c10_none_cached_witness :
    load 1 envNull stEmpty (Obj.mkDef "u0" (Prog.ret none)) none =
      (⟨[], [], [("u0", none)]⟩, [Event.create "u0"], Except.error Err.noneObjectId) ∧
    load 1 envNull ⟨[], [], [("u0", none)]⟩ (Obj.mkDef "u0" (Prog.ret none)) none =
      (⟨[], [], [("u0", none)]⟩, [], Except.ok none) :=
  ⟨(c10_none_cached 0 0 envNull stEmpty "u0" (Prog.ret none) stEmpty
      [Event.create "u0"] rfl (runProg_ret 0 envNull "u0" stEmpty none)).1,
    (c10_none_cached 0 0 envNull stEmpty "u0" (Prog.ret none) stEmpty
      [Event.create "u0"] rfl (runProg_ret 0 envNull "u0" stEmpty none)).2
      (Obj.mkDef "u0" (Prog.ret none)) none rfl⟩

/-- A registry answering every lookup with the id `"fn-2"`. -/
def envFn2 : Env := ⟨[], fun _ _ _ => ⟨"fn-2", ""⟩⟩

/-- C2 counterexample: the claim quantifies over every `load` call with a
supplied existingID, but the reconcile check of lines 126-135 sits in the
non-`Ref` branch only.  Loading a cross-application `Ref` with
`existing_object_id = "fn-1"` while the lookup produces `"fn-2"` — a
mismatch on a non-content-addressed id — succeeds silently instead of
raising `MaterializationError`. -/
theorem c2_reconcile_counterexample :
    load 1 envFn2 stEmpty (Obj.mkRef "u2" (some "X") "q" 0 none) (some "fn-1") =
      (⟨[], [], [("u2", some "fn-2")]⟩, [Event.lookup "X" "q" 0],
        Except.ok (some "fn-2")) ∧
    some "fn-2" ≠ some "fn-1" ∧
    strStartsWith "fn-1" "im-" = false := by
  refine ⟨?_, by decide, by decide⟩
  have hm : lookupKey stEmpty.localUuidToObjectId
      (Obj.localUuid (Obj.mkRef "u2" (some "X") "q" 0 none)) = none := rfl
  rw [load_memo_miss hm, loadBody_crossApp, crossApp_nodef]
  rfl

/-- C2 (amended) — Existing-ID reconciliation for definition nodes: when a
non-`Ref` node not yet memoized runs its creation logic with a supplied
existingID, a produced id differing from an existingID that does not start with `"im-"`
raises `MaterializationError`; a produced id equal to the existingID, or any
mismatch whose existingID starts with `"im-"`, succeeds silently and returns
the produced id. -/
theorem c2_reconcile_amended (fuel : Nat) (env : Env) (st : AppState) (u : String)
    (logic : Prog) (e : String) (st1 : AppState) (evs : List Event)
    (oid : Option String)
    (hm : lookupKey st.localUuidToObjectId u = none)
    (hrun : runProg fuel env u st logic = (st1, evs, Except.ok oid)) :
    (oid ≠ some e → strStartsWith e "im-" = false →
      load (fuel + 1) env st (Obj.mkDef u logic) (some e) =
        (st1, evs, Except.error (Err.materializationError e oid))) ∧
    (∀ w, oid = some w → (oid = some e ∨ strStartsWith e "im-" = true) →
      load (fuel + 1) env st (Obj.mkDef u logic) (some e) =
        ({ st1 with localUuidToObjectId := (u, some w) :: st1.localUuidToObjectId },
          evs, Except.ok (some w))) := by
  have hm' : lookupKey st.localUuidToObjectId
      (Obj.localUuid (Obj.mkDef u logic)) = none := hm
  constructor
  · intro hne him
    rw [load_memo_miss hm', loadBody_mkDef, hrun]
    have hrec : reconcile (some e) (st1, evs, Except.ok oid) =
        (st1, evs, Except.error (Err.materializationError e oid)) := by
      simp [reconcile, hne, him]
    rw [hrec, finalize_of_error rfl]
  · intro w hw hok
    subst hw
    rw [load_memo_miss hm', loadBody_mkDef, hrun]
    have hrec : reconcile (some e) (st1, evs, Except.ok (some w)) =
        (st1, evs, Except.ok (some w)) := by
      rcases hok with hok | hok
      · simp [reconcile, hok]
      · by_cases hq : some w = some e
        · simp [reconcile, hq]
        · simp [reconcile, hq, hok]
    rw [hrec, finalize_of_some rfl]
    rfl

theorem c2_reconcile_amended_witness :
    load 1 envNull stEmpty (Obj.mkDef "uM" (Prog.ret (some "fn-2"))) (some "fn-1") =
      (stEmpty, [Event.create "uM"],
        Except.error (Err.materializationError "fn-1" (some "fn-2"))) ∧
    load 1 envNull stEmpty (Obj.mkDef "uM" (Prog.ret (some "fn-1"))) (some "fn-1") =
      (⟨[], [], [("uM", some "fn-1")]⟩, [Event.create "uM"],
        Except.ok (some "fn-1")) ∧
    load 1 envNull stEmpty (Obj.mkDef "uM" (Prog.ret (some "im-9"))) (some "im-1") =
      (⟨[], [], [("uM", some "im-9")]⟩, [Event.create "uM"],
        Except.ok (some "im-9")) :=
  ⟨(c2_reconcile_amended 0 envNull stEmpty "uM" (Prog.ret (some "fn-2")) "fn-1"
      stEmpty [Event.create "uM"] (some "fn-2") rfl
      (runProg_ret 0 envNull "uM" stEmpty (some "fn-2"))).1 (by decide) (by decide),
    (c2_reconcile_amended 0 envNull stEmpty "uM" (Prog.ret (some "fn-1")) "fn-1"
      stEmpty [Event.create "uM"] (some "fn-1") rfl
      (runProg_ret 0 envNull "uM" stEmpty (some "fn-1"))).2 "fn-1" rfl
      (Or.inl rfl),
    (c2_reconcile_amended 0 envNull stEmpty "uM" (Prog.ret (some "im-9")) "im-1"
      stEmpty [Event.create "uM"] (some "im-9") rfl
      (runProg_ret 0 envNull "uM" stEmpty (some "im-9"))).2 "im-9" rfl
      (Or.inr (by decide))⟩

/-- A registry answering every lookup with the id `"qu-7"`. -/
def envQu7 : Env := ⟨[], fun _ _ _ => ⟨"qu-7", ""⟩⟩

/-- The embedded definition of the C6 counterexample. -/
def qDef : Obj := Obj.mkDef "uQ" (Prog.ret (some "fn-7"))

/-- C6 counterexample: resolving `Ref(appName = "X", tag = "q", definition)`
issues a deploy whose single-object application carries the fixed placeholder
tag `"_object"` (line 100: `_stub["_object"] = obj.definition`), not the
reference's tag `"q"` — no deploy containing only tag `"q"` occurs. -/
theorem c6_deploy_counterexample :
    (load 1 envQu7 stEmpty (Obj.mkRef "u6" (some "X") "q" 0 (some qDef)) none).2.1 =
      [Event.deploy "X" ["_object"], Event.lookup "X" "q" 0] ∧
    Event.deploy "X" ["q"] ∉
      (load 1 envQu7 stEmpty (Obj.mkRef "u6" (some "X") "q" 0 (some qDef)) none).2.1 := by
  have hm : lookupKey stEmpty.localUuidToObjectId
      (Obj.localUuid (Obj.mkRef "u6" (some "X") "q" 0 (some qDef))) = none := rfl
  rw [load_memo_miss hm, loadBody_crossApp, crossApp_somedef]
  constructor
  · rw [finalize_events]
  · rw [finalize_events]
    decide

/-- C6 (amended) — Cross-application reference with embedded definition: the
reference's definition is deployed as the sole object of a throwaway
application under `appName`, registered under the fixed placeholder tag
`"_object"`; then exactly one cross-application lookup by
`(appName, tag, namespace)` is performed, whose object id is returned (or
whose missing id raises `NotFoundError`). -/
theorem c6_deploy_amended (fuel : Nat) (env : Env) (st : AppState)
    (u an tag : String) (ns : Nat) (d : Obj) (ex : Option String)
    (hm : lookupKey st.localUuidToObjectId u = none) :
    ((load (fuel + 1) env st (Obj.mkRef u (some an) tag ns (some d)) ex).2.1 =
      [Event.deploy an ["_object"], Event.lookup an tag ns]) ∧
    ((env.appLookupObject an tag ns).objectId ≠ "" →
      load (fuel + 1) env st (Obj.mkRef u (some an) tag ns (some d)) ex =
        ({ st with localUuidToObjectId :=
            (u, some (env.appLookupObject an tag ns).objectId) ::
              st.localUuidToObjectId },
          [Event.deploy an ["_object"], Event.lookup an tag ns],
          Except.ok (some (env.appLookupObject an tag ns).objectId))) ∧
    ((env.appLookupObject an tag ns).objectId = "" →
      load (fuel + 1) env st (Obj.mkRef u (some an) tag ns (some d)) ex =
        (st, [Event.deploy an ["_object"], Event.lookup an tag ns],
          Except.error (Err.notFound (env.appLookupObject an tag ns).errorMessage))) := by
  have hm' : lookupKey st.localUuidToObjectId
      (Obj.localUuid (Obj.mkRef u (some an) tag ns (some d))) = none := hm
  refine ⟨?_, ?_, ?_⟩
  · rw [load_memo_miss hm', loadBody_crossApp, crossApp_somedef, finalize_events]
  · intro hne
    rw [load_memo_miss hm', loadBody_crossApp, crossApp_somedef]
    have hlr : (lookupToId env an tag ns).2 =
        Except.ok (env.appLookupObject an tag ns).objectId := by
      simp [lookupToId, hne]
    rw [finalize_of_some (by rw [hlr]; rfl)]
    rw [hlr]
    rfl
  · intro hempty
    rw [load_memo_miss hm', loadBody_crossApp, crossApp_somedef]
    have hlr : (lookupToId env an tag ns).2 =
        Except.error (Err.notFound (env.appLookupObject an tag ns).errorMessage) := by
      simp [lookupToId, hempty]
    rw [finalize_of_error (by rw [hlr]; rfl)]
    rw [hlr]
    rfl

theorem c6_deploy_amended_witness :
    load 1 envQu7 stEmpty (Obj.mkRef "u6w" (some "X") "q" 0 (some qDef)) none =
      (⟨[], [], [("u6w", some "qu-7")]⟩,
        [Event.deploy "X" ["_object"], Event.lookup "X" "q" 0],
        Except.ok (some "qu-7")) :=
  (c6_deploy_amended 0 envQu7 stEmpty "u6w" "X" "q" 0 qDef none rfl).2.1 (by decide)

/-- C3 — Same-application reference resolution and diamond sharing: a
non-memoized same-application reference (a) reuses a `_tag_to_object` entry
with no remote call, (b) otherwise loads the tag's blueprint definition with
`_tag_to_existing_id[tag]` as the existing id and caches the result under the
tag, and (c) once a first reference to tag T has resolved to an id, a second
reference to T (fresh LocalUUID) resolves to the same id with an empty trace:
T's creation logic is not re-invoked, so it runs exactly once for both
dependents. -/
theorem c3_same_app_resolution (fuel : Nat) (env : Env) (st : AppState)
    (u tag : String) (ns : Nat) (ex : Option String)
    (hm : lookupKey st.localUuidToObjectId u = none) :
    (∀ w, lookupKey st.tagToObject tag = some (some w) →
      load (fuel + 1) env st (Obj.mkRef u none tag ns none) ex =
        ({ st with localUuidToObjectId := (u, some w) :: st.localUuidToObjectId },
          [], Except.ok (some w))) ∧
    (∀ realObj, lookupKey st.tagToObject tag = none →
      lookupKey env.blueprint tag = some realObj →
      load (fuel + 1) env st (Obj.mkRef u none tag ns none) ex =
        finalize u (cacheTag tag
          (load fuel env st realObj (lookupKey st.tagToExistingID tag)))) ∧
    (∀ (st1 : AppState) (evs1 : List Event) (oid : Option String)
      (u2 : String) (ns2 : Nat) (ex2 : Option String) (g : Nat),
      load (fuel + 1) env st (Obj.mkRef u none tag ns none) ex =
        (st1, evs1, Except.ok oid) →
      lookupKey st1.localUuidToObjectId u2 = none →
      load (g + 1) env st1 (Obj.mkRef u2 none tag ns2 none) ex2 =
        ({ st1 with localUuidToObjectId := (u2, oid) :: st1.localUuidToObjectId },
          [], Except.ok oid)) := by
  have hm' : lookupKey st.localUuidToObjectId
      (Obj.localUuid (Obj.mkRef u none tag ns none)) = none := hm
  refine ⟨?_, ?_, ?_⟩
  · intro w hw
    rw [load_memo_miss hm', loadBody_sameApp_hit hw, finalize_of_some rfl]
    rfl
  · intro realObj ht hb
    rw [load_memo_miss hm', loadBody_sameApp_fresh ht hb]
    rfl
  · intro st1 evs1 oid u2 ns2 ex2 g h hm2
    have htag := load_sameApp_ok_tag hm h
    obtain ⟨w, rfl⟩ := load_fresh_ok_some hm' (by rw [h])
    have hm2' : lookupKey st1.localUuidToObjectId
        (Obj.localUuid (Obj.mkRef u2 none tag ns2 none)) = none := hm2
    rw [load_memo_miss hm2', loadBody_sameApp_hit htag, finalize_of_some rfl]
    rfl

/-- The single-definition blueprint used by the C3 witness. -/
def envD3 : Env := ⟨[("t", Obj.mkDef "uT" (Prog.ret (some "fn-9")))],
  fun _ _ _ => ⟨"", "no such object"⟩⟩

theorem c3_same_app_resolution_witness :
    load 1 envD3
      (⟨[("t", some "fn-9")], [], [("uX", some "fn-9"), ("uT", some "fn-9")]⟩ :
        AppState)
      (Obj.mkRef "uY" none "t" 0 none) none =
      (⟨[("t", some "fn-9")], [],
          [("uY", some "fn-9"), ("uX", some "fn-9"), ("uT", some "fn-9")]⟩,
        [], Except.ok (some "fn-9")) :=
  (c3_same_app_resolution 1 envD3 stEmpty "uX" "t" 0 none rfl).2.2
    (⟨[("t", some "fn-9")], [], [("uX", some "fn-9"), ("uT", some "fn-9")]⟩ :
      AppState)
    [Event.create "uT"] (some "fn-9") "uY" 0 none 0 (by decide) rfl

/-- The abc blueprint whose tag b fails remotely, used by the C5 witness. -/
def envC5 : Env := ⟨[("a", Obj.mkDef "uA" (Prog.ret (some "fn-1"))),
    ("b", Obj.mkDef "uB" (Prog.fail "boom")),
    ("c", Obj.mkDef "uC" (Prog.ret (some "fn-3")))],
  fun _ _ _ => ⟨"", "no such object"⟩⟩

/-- C5 — Abort on failure with partial progress kept: if loading some tag in
the loop of `create_all_objects` fails, `create_all_objects` returns exactly
that failure (nothing is swallowed), its trace contains no `AppSetObjects`
call, and every cache entry present when it started is still present in the
returned state (nothing is rolled back; the state at failure is kept, so a
retry can reuse entries memoized by the earlier, successful loads). -/
theorem c5_abort_on_failure (fuel : Nat) (env : Env) (st : AppState)
    (appId : String) (st1 : AppState) (evs1 : List Event) (e : Err)
    (h : loadTags fuel env st env.blueprint = (st1, evs1, Except.error e)) :
    createAllObjects fuel env st appId = (st1, evs1, Except.error e) ∧
    (∀ ev ∈ evs1, ev.isSetObjects = false) ∧
    (∀ u v, lookupKey st.localUuidToObjectId u = some v →
      lookupKey st1.localUuidToObjectId u = some v) ∧
    (∀ t v, lookupKey st.tagToObject t = some v →
      lookupKey st1.tagToObject t = some v) := by
  have hlt : (loadTags fuel env st env.blueprint).2.2 = Except.error e := by
    rw [h]
  have h1 : (loadTags fuel env st env.blueprint).1 = st1 := by rw [h]
  have h2 : (loadTags fuel env st env.blueprint).2.1 = evs1 := by rw [h]
  have hpres := loadTagsInv fuel env env.blueprint st
  refine ⟨?_, ?_, ?_, ?_⟩
  · rw [createAllObjects_eq_error hlt, h1, h2]
  · intro ev hev
    rw [← h2] at hev
    exact hpres.2.2.2.2 ev hev
  · intro u v hu
    rw [← h1]
    exact hpres.1 u v hu
  · intro t v ht
    rw [← h1]
    exact hpres.2.1 t v ht

theorem c5_abort_on_failure_witness :
    createAllObjects 3 envC5 stEmpty "ap-1" =
      (⟨[("a", some "fn-1")], [], [("@", some "fn-1"), ("uA", some "fn-1")]⟩,
        [Event.create "uA"], Except.error (Err.remoteError "boom")) ∧
    lookupKey
      ((createAllObjects 3 envC5 stEmpty "ap-1").1).tagToObject "a" =
      some (some "fn-1") :=
  ⟨(c5_abort_on_failure 3 envC5 stEmpty "ap-1"
      (⟨[("a", some "fn-1")], [], [("@", some "fn-1"), ("uA", some "fn-1")]⟩ :
        AppState)
      [Event.create "uA"] (Err.remoteError "boom") (by decide)).1,
    by decide⟩

/-- C4 — Registration completeness: when `create_all_objects` succeeds from a
session with an empty `_tag_to_object`, its trace is the loading events
(none of which is an `AppSetObjects` call) followed by exactly one final
`AppSetObjects` call carrying the finished `_tag_to_object` map, whose key
set is exactly the blueprint's tag set — so registration happens only after
every Definition Graph tag has an entry. -/
theorem c4_registration_completeness (fuel : Nat) (env : Env) (st : AppState)
    (appId : String) (st' : AppState) (evs : List Event)
    (h0 : st.tagToObject = [])
    (h : createAllObjects fuel env st appId = (st', evs, Except.ok ())) :
    ∃ evs0, evs = evs0 ++ [Event.setObjects appId st'.tagToObject] ∧
      (∀ ev ∈ evs0, ev.isSetObjects = false) ∧
      (∀ t, t ∈ keysOf st'.tagToObject ↔ t ∈ keysOf env.blueprint) := by
  cases hlt : (loadTags fuel env st env.blueprint).2.2 with
  | error e =>
    rw [createAllObjects_eq_error hlt] at h
    exact absurd (congrArg (fun r => r.2.2) h) (by simp)
  | ok u0 =>
    cases u0
    rw [createAllObjects_eq_ok hlt] at h
    have h1 := congrArg (fun r => r.1) h
    have h2 := congrArg (fun r => r.2.1) h
    simp only [] at h1 h2
    refine ⟨(loadTags fuel env st env.blueprint).2.1, ?_, ?_, ?_⟩
    · rw [← h2, h1]
    · intro ev hev
      exact (loadTagsInv fuel env env.blueprint st).2.2.2.2 ev hev
    · intro t
      constructor
      · intro hmem
        have hsome : (lookupKey st'.tagToObject t).isSome :=
          (lookupKey_isSome_iff _ _).2 hmem
        rw [← h1] at hsome
        rcases (loadTagsInv fuel env env.blueprint st).2.2.2.1 t hsome with hin | hin
        · rw [h0] at hin
          exact absurd hin (by simp [lookupKey])
        · exact (lookupKey_isSome_iff _ _).1 hin
      · intro hmem
        have hmem' : t ∈ env.blueprint.map Prod.fst := hmem
        obtain ⟨p, hp, hpt⟩ := List.mem_map.1 hmem' 
        have hlt' : loadTags fuel env st env.blueprint =
            ((loadTags fuel env st env.blueprint).1,
              (loadTags fuel env st env.blueprint).2.1, Except.ok ()) := by
          rw [← hlt]
        have htags := loadTags_ok_tags fuel env env.blueprint st _ _ hlt' p hp
        rw [h1, hpt] at htags
        exact (lookupKey_isSome_iff _ _).1 htags

/-- The abc blueprint in which b depends on a and c depends on b, used by the
C4 witness. -/
def envC4 : Env := ⟨[("a", Obj.mkDef "vA" (Prog.ret (some "fn-1"))),
    ("b", Obj.mkDef "vB"
      (Prog.dep (Obj.mkRef "rA" none "a" 0 none) (Prog.ret (some "fn-2")))),
    ("c", Obj.mkDef "vC"
      (Prog.dep (Obj.mkRef "rB" none "b" 0 none) (Prog.ret (some "fn-3"))))],
  fun _ _ _ => ⟨"", "no such object"⟩⟩

theorem c4_registration_completeness_witness :
    ∃ evs0, (createAllObjects 5 envC4 stEmpty "ap-1").2.1 =
        evs0 ++ [Event.setObjects "ap-1"
          (createAllObjects 5 envC4 stEmpty "ap-1").1.tagToObject] ∧
      (∀ ev ∈ evs0, ev.isSetObjects = false) ∧
      (∀ t, t ∈ keysOf (createAllObjects 5 envC4 stEmpty "ap-1").1.tagToObject ↔
        t ∈ keysOf envC4.blueprint) :=
  c4_registration_completeness 5 envC4 stEmpty "ap-1"
    (createAllObjects 5 envC4 stEmpty "ap-1").1
    (createAllObjects 5 envC4 stEmpty "ap-1").2.1 rfl (by decide)

/-- C7 — Depth-first, deterministic ordering: (a) a successful first load of
a definition node issues the node's own creation call as the last event of
its trace, and every dependency its coroutine requested has a resolved id in
the resulting memoization cache; (b) the loop of `create_all_objects`
materializes tags sequentially in Definition Graph iteration order: the
events of the head tag's load precede all events of the remaining tags. -/
theorem c7_depth_first_order :
    (∀ (fuel : Nat) (env : Env) (st : AppState) (u : String) (logic : Prog)
      (ex : Option String) (st' : AppState) (evs : List Event)
      (oid : Option String),
      lookupKey st.localUuidToObjectId u = none →
      load (fuel + 1) env st (Obj.mkDef u logic) ex = (st', evs, Except.ok oid) →
      (∃ evs0, evs = evs0 ++ [Event.create u]) ∧
      (∀ d ∈ progDeps logic,
        (lookupKey st'.localUuidToObjectId (Obj.localUuid d)).isSome)) ∧
    (∀ (fuel : Nat) (env : Env) (st : AppState) (tag : String) (o : Obj)
      (rest : List (String × Obj)) (w : Option String),
      (load fuel env st
        (Obj.mkRef (freshUuid st.localUuidToObjectId) none tag 0 none) none).2.2 =
        Except.ok w →
      loadTags fuel env st ((tag, o) :: rest) =
        ((loadTags fuel env
            (load fuel env st
              (Obj.mkRef (freshUuid st.localUuidToObjectId) none tag 0 none)
              none).1 rest).1,
          (load fuel env st
            (Obj.mkRef (freshUuid st.localUuidToObjectId) none tag 0 none)
            none).2.1 ++
            (loadTags fuel env
              (load fuel env st
                (Obj.mkRef (freshUuid st.localUuidToObjectId) none tag 0 none)
                none).1 rest).2.1,
          (loadTags fuel env
            (load fuel env st
              (Obj.mkRef (freshUuid st.localUuidToObjectId) none tag 0 none)
              none).1 rest).2.2)) := by
  constructor
  · intro fuel env st u logic ex st' evs oid hm h
    have hm' : lookupKey st.localUuidToObjectId
        (Obj.localUuid (Obj.mkDef u logic)) = none := hm
    rw [load_memo_miss hm', loadBody_mkDef] at h
    have hok : (finalize (Obj.localUuid (Obj.mkDef u logic))
        (reconcile ex (runProg fuel env u st logic))).2.2 = Except.ok oid := by
      rw [h]
    obtain ⟨hbody, w, hw⟩ := finalize_ok_inv hok
    subst hw
    have hrun : (runProg fuel env u st logic).2.2 = Except.ok (some w) :=
      reconcile_ok_inv hbody
    have hshape := runProg_ok_shape env u fuel logic st
      (runProg fuel env u st logic).1 (runProg fuel env u st logic).2.1
      (some w) (by rw [← hrun])
    obtain ⟨⟨evs0, hevs0⟩, hdeps⟩ := hshape
    rw [finalize_of_some hbody] at h
    have h1 := congrArg (fun r => r.1) h
    have h2 := congrArg (fun r => r.2.1) h
    simp only [] at h1 h2
    have hrst := (reconcile_state_events ex (runProg fuel env u st logic)).1
    have hrev := (reconcile_state_events ex (runProg fuel env u st logic)).2
    constructor
    · refine ⟨evs0, ?_⟩
      rw [← h2, hrev, hevs0]
    · intro d hd
      have hds := hdeps d hd
      rw [← h1]
      have hgoal : (lookupKey
          ((Obj.localUuid (Obj.mkDef u logic), some w) ::
            (reconcile ex (runProg fuel env u st logic)).1.localUuidToObjectId)
          (Obj.localUuid d)).isSome := by
        rw [hrst]
        exact lookupKey_cons_isSome _ hds
      exact hgoal
  · intro fuel env st tag o rest w h
    exact loadTags_cons_ok h

/-- The blueprint used by the C7 witness: `wB`'s coroutine depends on the
blueprint tag a before its own creation call. -/
def envC7 : Env := ⟨[("a", Obj.mkDef "wA" (Prog.ret (some "fn-1")))],
  fun _ _ _ => ⟨"", "no such object"⟩⟩

/-- The definition node loaded by the C7 witness. -/
def objC7 : Obj := Obj.mkDef "wB"
  (Prog.dep (Obj.mkRef "wR" none "a" 0 none) (Prog.ret (some "fn-2")))

theorem c7_depth_first_order_witness :
    (∃ evs0, (load 4 envC7 stEmpty objC7 none).2.1 =
      evs0 ++ [Event.create "wB"]) ∧
    (∀ d ∈ progDeps
        (Prog.dep (Obj.mkRef "wR" none "a" 0 none) (Prog.ret (some "fn-2"))),
      (lookupKey (load 4 envC7 stEmpty objC7 none).1.localUuidToObjectId
        (Obj.localUuid d)).isSome) :=
  c7_depth_first_order.1 3 envC7 stEmpty "wB"
    (Prog.dep (Obj.mkRef "wR" none "a" 0 none) (Prog.ret (some "fn-2"))) none
    (load 4 envC7 stEmpty objC7 none).1
    (load 4 envC7 stEmpty objC7 none).2.1 (some "fn-2") rfl (by decide)

end Modal
